import Mathlib

/-!
Verification of the process-lifecycle controller in
`src/Engine/Source/Runtime/Launch/Private/Launch.cpp` (`GuardedMain` and its
helpers).  The controller is embedded shallowly: the opaque engine-loop
phases (`FEngineLoop::PreInit/Init/Tick/Exit`) are parameters of the model,
described only by their integer results and by whether they raise the global
exit-request flag; the controller's own control flow is translated from the
source.  Each run produces a trace of events, so claims about "how many
times phase X executes" and "in which order" become statements about the
trace.
-/

namespace Launch

/-- The process-wide lifecycle state visible to the controller: the global
exit-request flag queried by `IsEngineExitRequested()` and set by
`RequestEngineExit()`.  The boundary API is a query/set pair; nothing in
scope can clear the flag. -/
structure RunState where
  exitRequested : Bool
deriving Repr, DecidableEq

/-- `RequestEngineExit`: sets the global exit-request flag. -/
def RequestEngineExit (s : RunState) : RunState :=
  { s with exitRequested := true }

/-- Mirror of `GUELibraryOverrideSettings`: the embedded-mode flag read by
the cleanup guard and by the tick-loop gate. -/
structure UELibraryOverrideSettings where
  bIsEmbedded : Bool
deriving Repr, DecidableEq

/-- Observable events of one run of `GuardedMain`, in program order.
Scoped (RAII) objects appear as acquire/release pairs: `FTaskTagScope Scope`
(line 95), the `CleanupGuard` (lines 127-138), and the `FScopedSlowTask`
(line 160).  The guard's release action calls `EngineExit`, which emits
`requestExitSet` (the `RequestEngineExit` call at line 72) followed by
`engineLoopExitCall` (`GEngineLoop.Exit()` at line 74). -/
inductive Event where
  | acquireTaskTag
  | debugGate
  | preMainBroadcast
  | acquireGuard
  | preInitCall
  | acquireSlowTask
  | progressReport (pct : Nat)
  | initCall
  | releaseSlowTask
  | tickCall
  | requestExitSet
  | engineLoopExitCall
  | releaseTaskTag
deriving Repr, DecidableEq

/-- The opaque engine-loop collaborator, described by its contract only:
`PreInit` and `Init` return an integer error level and may request exit;
each `Tick` (indexed by its iteration number) may request exit. -/
structure EngineLoopModel where
  preInitError : Int
  preInitRequestsExit : Bool
  initError : Int
  initRequestsExit : Bool
  tickRequestsExit : Nat → Bool

/-- Input of one run of `GuardedMain`: the command-line wait-for-attach
flag, the embedded-mode settings, the engine-loop behaviour, the
exit-request flag at entry, and whether an external party raises the flag
in the window between `Init` returning and the first loop check. -/
structure GMInput where
  waitForAttach : Bool
  settings : UELibraryOverrideSettings
  engine : EngineLoopModel
  initialExitRequested : Bool
  externalExitAfterInit : Bool

/-- `EngineExit` (lines 69-75): first makes sure the exit-request flag is
set via `RequestEngineExit`, then runs `GEngineLoop.Exit()`.  The opaque
`Exit` releases engine internals and does not touch the flag. -/
def EngineExit (s : RunState) : RunState × List Event :=
  (RequestEngineExit s, [Event.requestExitSet, Event.engineLoopExitCall])

/-- The `CleanupGuard` destructor (lines 129-137): on scope exit it calls
`EngineExit` unless `bIsEmbedded` is set, in which case it does nothing. -/
def guardRelease (embedded : Bool) (s : RunState) : RunState × List Event :=
  if embedded then (s, []) else EngineExit s

/-- Modelled from the spec: `FScopedSlowTask` (Progress Accountant,
`Misc/ScopedSlowTask.h`, not present under `src/`).  It owns a fixed total
budget; each `EnterProgressFrame` advances completed work within the
reserved budget, never past it, and the displayed value is the completed
percentage of the total. -/
structure FScopedSlowTask where
  totalAmountOfWork : Nat
  completedWork : Nat
deriving Repr, DecidableEq

/-- Modelled from the spec: start a slow task with a given total budget and
no completed work. -/
def FScopedSlowTask.make (total : Nat) : FScopedSlowTask :=
  { totalAmountOfWork := total, completedWork := 0 }

/-- Modelled from the spec: `EnterProgressFrame` advances the completed
work by the frame's expected work, clamped to the reserved total, and
reports the resulting percentage. -/
def FScopedSlowTask.enterProgressFrame (t : FScopedSlowTask) (work : Nat) :
    FScopedSlowTask × Nat :=
  let t2 : FScopedSlowTask :=
    { t with completedWork := min (t.completedWork + work) t.totalAmountOfWork }
  (t2, t2.completedWork * 100 / t2.totalAmountOfWork)

/-- The tick loop (lines 195-198): `while (!IsEngineExitRequested())
EngineTick();`.  The flag is read fresh at each iteration boundary; tick
`k` may request exit, which is observed only at the next boundary.  `fuel`
bounds the number of iterations evaluated; the loop itself has no cap, so
a run that is still ticking when fuel runs out is `none`. -/
def tickLoop (tickReq : Nat → Bool) : Nat → Nat → RunState → Option (RunState × List Event)
  | 0, _, s => if s.exitRequested then some (s, []) else none
  | fuel + 1, k, s =>
    if s.exitRequested then some (s, [])
    else
      match tickLoop tickReq fuel (k + 1)
          (if tickReq k then RequestEngineExit s else s) with
      | none => none
      | some (s3, evs) => some (s3, Event.tickCall :: evs)

/-- Events of `GuardedMain` up to and including the `EnginePreInit` call
(lines 93-151): task-tag scope, optional debug-attach gate, the one-shot
pre-main broadcast, the cleanup guard, then `EnginePreInit`. -/
def prefixEvents (wait : Bool) : List Event :=
  Event.acquireTaskTag ::
    (if wait then [Event.debugGate] else []) ++
      [Event.preMainBroadcast, Event.acquireGuard, Event.preInitCall]

/-- The exit-request flag state when `GuardedMain` checks it at line 154,
right after `EnginePreInit` returns. -/
def stateAfterPreInit (inp : GMInput) : RunState :=
  if inp.engine.preInitRequestsExit then
    RequestEngineExit { exitRequested := inp.initialExitRequested }
  else
    { exitRequested := inp.initialExitRequested }

/-- The early-return path (lines 154-157): `GuardedMain` returns the
pre-init error level; the guard and the task-tag scope are released on the
way out. -/
def earlyRun (inp : GMInput) : Int × RunState × List Event :=
  let (s2, gevs) := guardRelease inp.settings.bIsEmbedded (stateAfterPreInit inp)
  (inp.engine.preInitError, s2,
    prefixEvents inp.waitForAttach ++ gevs ++ [Event.releaseTaskTag])

/-- Events of the slow-task scope (lines 159-179): acquire the 100-unit
slow task, eagerly consume the 80% belonging to pre-init, enter init's 20%
frame, call `EngineInit`, release the scope. -/
def slowTaskEvents : List Event :=
  let t0 := FScopedSlowTask.make 100
  let (t1, p1) := t0.enterProgressFrame 80
  let (_, p2) := t1.enterProgressFrame 20
  [Event.acquireSlowTask, Event.progressReport p1, Event.progressReport p2,
   Event.initCall, Event.releaseSlowTask]

/-- The exit-request flag state at the first tick-loop boundary check
(line 195): after `EngineInit` returned (it may have requested exit) and
after any external request landing between `Init` and the first check. -/
def stateAtLoopEntry (inp : GMInput) : RunState :=
  let s2 :=
    if inp.engine.initRequestsExit then RequestEngineExit (stateAfterPreInit inp)
    else stateAfterPreInit inp
  if inp.externalExitAfterInit then RequestEngineExit s2 else s2

/-- The normal-completion path (lines 159-209): the run's result is the
init error level; the tick events and post-loop state come from the tick
loop; the guard and the task-tag scope are released on the way out. -/
def fullRun (inp : GMInput) (s4 : RunState) (tickEvs : List Event) :
    Int × RunState × List Event :=
  let (s5, gevs) := guardRelease inp.settings.bIsEmbedded s4
  (inp.engine.initError, s5,
    prefixEvents inp.waitForAttach ++ slowTaskEvents ++ tickEvs ++ gevs ++
      [Event.releaseTaskTag])

/-- `GuardedMain` (lines 91-210), non-editor configuration.  After the
pre-init portion, line 154 gates on a non-zero error level or a pending
exit request; otherwise init runs inside the slow-task scope and the tick
loop runs unless embedded (lines 193-199).  Returns the final error level,
the final `RunState` and the event trace, or `none` if the tick loop
outruns `fuel`. -/
def GuardedMain (inp : GMInput) (fuel : Nat) : Option (Int × RunState × List Event) :=
  if inp.engine.preInitError ≠ 0 ∨ (stateAfterPreInit inp).exitRequested = true then
    some (earlyRun inp)
  else
    match
      (if inp.settings.bIsEmbedded then some (stateAtLoopEntry inp, ([] : List Event))
       else tickLoop inp.engine.tickRequestsExit fuel 0 (stateAtLoopEntry inp)) with
    | none => none
    | some (s4, tickEvs) => some (fullRun inp s4 tickEvs)

/-! ### Helper lemmas about the tick loop -/

/-- Requesting exit always yields the state with the flag set. -/
@[simp]
theorem RequestEngineExit_eq (s : RunState) :
    RequestEngineExit s = { exitRequested := true } := rfl

/-- Every event emitted by the tick loop is a tick call. -/
theorem tickLoop_events {tickReq : Nat → Bool} :
    ∀ {fuel k : Nat} {s s2 : RunState} {evs : List Event},
      tickLoop tickReq fuel k s = some (s2, evs) → ∀ e ∈ evs, e = Event.tickCall := by
  intro fuel
  induction fuel with
  | zero =>
    intro k s s2 evs h e he
    unfold tickLoop at h
    split at h
    · cases h
      simp at he
    · cases h
  | succ n ih =>
    intro k s s2 evs h e he
    unfold tickLoop at h
    split at h
    · cases h
      simp at he
    · rcases hrec : tickLoop tickReq n (k + 1)
          (if tickReq k then RequestEngineExit s else s) with _ | p
      · rw [hrec] at h
        cases h
      · rcases p with ⟨s3, evs3⟩
        rw [hrec] at h
        cases h
        rcases List.mem_cons.mp he with h1 | h1
        · exact h1
        · exact ih hrec e h1

/-- If the flag is already set at a boundary check, the loop stops at once. -/
theorem tickLoop_of_exit (tickReq : Nat → Bool) (fuel k : Nat) {s : RunState}
    (h : s.exitRequested = true) : tickLoop tickReq fuel k s = some (s, []) := by
  cases fuel <;> simp [tickLoop, h]

/-- If the flag is unset and no tick within the fuel bound requests exit,
the loop exhausts its fuel. -/
theorem tickLoop_none (tickReq : Nat → Bool) :
    ∀ {fuel k : Nat} {s : RunState}, s.exitRequested = false →
      (∀ i, i < fuel → tickReq (k + i) = false) →
      tickLoop tickReq fuel k s = none := by
  intro fuel
  induction fuel with
  | zero =>
    intro k s hs _
    simp [tickLoop, hs]
  | succ n ih =>
    intro k s hs hreq
    have h0 : tickReq k = false := by
      have := hreq 0 (Nat.succ_pos n)
      simpa using this
    have hrec : tickLoop tickReq n (k + 1) s = none := by
      refine ih hs ?_
      intro i hi
      have := hreq (i + 1) (Nat.succ_lt_succ hi)
      simpa [Nat.add_assoc, Nat.add_comm, Nat.add_left_comm] using this
    simp [tickLoop, hs, h0, hrec]

/-- If the flag is unset at entry and tick number `n` (zero-based) is the
first to request exit, the loop runs exactly `n + 1` iterations and stops
with the flag set. -/
theorem tickLoop_first (tickReq : Nat → Bool) :
    ∀ {n fuel k : Nat} {s : RunState}, s.exitRequested = false →
      (∀ i, i < n → tickReq (k + i) = false) → tickReq (k + n) = true →
      n < fuel →
      tickLoop tickReq fuel k s =
        some ({ exitRequested := true }, List.replicate (n + 1) Event.tickCall) := by
  intro n
  induction n with
  | zero =>
    intro fuel k s hs _ hn hfuel
    rcases fuel with _ | m
    · exact absurd hfuel (Nat.lt_irrefl 0)
    · have h0 : tickReq k = true := by simpa using hn
      have hrec := tickLoop_of_exit tickReq m (k + 1)
        (s := ({ exitRequested := true } : RunState)) rfl
      simp [tickLoop, hs, h0, hrec]
  | succ n ih =>
    intro fuel k s hs hlt hn hfuel
    rcases fuel with _ | m
    · exact absurd hfuel (Nat.not_lt_zero _)
    · have h0 : tickReq k = false := by
        have := hlt 0 (Nat.succ_pos n)
        simpa using this
      have hrec : tickLoop tickReq m (k + 1) s =
          some ({ exitRequested := true }, List.replicate (n + 1) Event.tickCall) := by
        refine ih hs ?_ ?_ (Nat.lt_of_succ_lt_succ hfuel)
        · intro i hi
          have := hlt (i + 1) (Nat.succ_lt_succ hi)
          simpa [Nat.add_assoc, Nat.add_comm, Nat.add_left_comm] using this
        · have : k + (n + 1) = k + 1 + n := by omega
          rw [← this]
          exact hn
      simp [tickLoop, hs, h0, hrec, List.replicate_succ]

/-- Releasing the guard in embedded mode is a no-op. -/
theorem guardRelease_embedded (s : RunState) : guardRelease true s = (s, []) := rfl

/-- Releasing the guard outside embedded mode runs `EngineExit`: the flag is
set and the two exit events are emitted. -/
theorem guardRelease_normal (s : RunState) :
    guardRelease false s =
      ({ exitRequested := true }, [Event.requestExitSet, Event.engineLoopExitCall]) := rfl

/-- The slow-task scope reports 80% after the eagerly-consumed pre-init
frame and 100% after init's frame. -/
theorem slowTaskEvents_eq :
    slowTaskEvents =
      [Event.acquireSlowTask, Event.progressReport 80, Event.progressReport 100,
       Event.initCall, Event.releaseSlowTask] := rfl

/-- Inversion of a completed run: either line 154's gate fired and the run
is the early-return run, or pre-init succeeded with no pending exit request
and the run is the normal run around the (possibly skipped) tick loop. -/
theorem GuardedMain_inv {inp : GMInput} {fuel : Nat} {r : Int × RunState × List Event}
    (h : GuardedMain inp fuel = some r) :
    ((inp.engine.preInitError ≠ 0 ∨ (stateAfterPreInit inp).exitRequested = true) ∧
      r = earlyRun inp) ∨
    (inp.engine.preInitError = 0 ∧ (stateAfterPreInit inp).exitRequested = false ∧
      ∃ s4 tickEvs,
        (if inp.settings.bIsEmbedded then some (stateAtLoopEntry inp, ([] : List Event))
         else tickLoop inp.engine.tickRequestsExit fuel 0 (stateAtLoopEntry inp)) =
          some (s4, tickEvs) ∧
        r = fullRun inp s4 tickEvs) := by
  unfold GuardedMain at h
  split at h
  · rename_i hcond
    left
    exact ⟨hcond, (Option.some.inj h).symm⟩
  · rename_i hcond
    push_neg at hcond
    right
    refine ⟨hcond.1, by simpa using hcond.2, ?_⟩
    rcases hm :
        (if inp.settings.bIsEmbedded then some (stateAtLoopEntry inp, ([] : List Event))
         else tickLoop inp.engine.tickRequestsExit fuel 0 (stateAtLoopEntry inp)) with
      _ | p
    · rw [hm] at h
      cases h
    · rcases p with ⟨s4, tickEvs⟩
      rw [hm] at h
      exact ⟨s4, tickEvs, rfl, (Option.some.inj h).symm⟩

/-- Events other than tick calls never occur in the tick loop's trace. -/
theorem tickLoop_count_eq_zero {tickReq : Nat → Bool} {fuel k : Nat}
    {s s2 : RunState} {evs : List Event}
    (h : tickLoop tickReq fuel k s = some (s2, evs)) {e : Event}
    (hne : e ≠ Event.tickCall) : evs.count e = 0 :=
  List.count_eq_zero.mpr fun hmem => hne (tickLoop_events h e hmem)

/-! ### Concrete runs used as witnesses -/

/-- An engine loop whose phases all succeed and never request exit. -/
def baseEngine : EngineLoopModel :=
  { preInitError := 0, preInitRequestsExit := false, initError := 0,
    initRequestsExit := false, tickRequestsExit := fun _ => false }

/-- A plain non-embedded run with no debugger wait and no exit requests. -/
def baseInput : GMInput :=
  { waitForAttach := false, settings := { bIsEmbedded := false },
    engine := baseEngine, initialExitRequested := false,
    externalExitAfterInit := false }

/-- A run whose `PreInit` fails with error level 7. -/
def preInitFailInput : GMInput :=
  { baseInput with engine := { baseEngine with preInitError := 7 } }

/-- A run in embedded mode with all phases succeeding. -/
def embeddedInput : GMInput :=
  { baseInput with settings := { bIsEmbedded := true } }

/-- A run where the third tick (index 2) requests exit, so the flag is
observed unset at three loop-boundary checks. -/
def threeTickInput : GMInput :=
  { baseInput with engine := { baseEngine with tickRequestsExit := fun i => i == 2 } }

/-- The completed three-tick run: result 0, flag set by the guard, three
tick calls in the trace. -/
def threeTickRun : Int × RunState × List Event :=
  fullRun threeTickInput { exitRequested := true }
    [Event.tickCall, Event.tickCall, Event.tickCall]

/-! ### Claims -/

/-- C1: when `PreInit` returns a non-zero error level, `Init` is never
invoked, the tick loop runs zero times, the final result is `PreInit`'s
error code, and the exit phase runs exactly once when not embedded and
zero times when embedded. -/
theorem claim_C1 (inp : GMInput) (fuel : Nat) (r : Int × RunState × List Event)
    (h : GuardedMain inp fuel = some r) (hp : inp.engine.preInitError ≠ 0) :
    r.2.2.count Event.initCall = 0 ∧ r.2.2.count Event.tickCall = 0 ∧
    r.1 = inp.engine.preInitError ∧
    r.2.2.count Event.engineLoopExitCall =
      (if inp.settings.bIsEmbedded then 0 else 1) := by
  have hr : r = earlyRun inp := by
    rcases GuardedMain_inv h with ⟨_, hr⟩ | ⟨h0, _⟩
    · exact hr
    · exact absurd h0 hp
  subst hr
  cases hw : inp.waitForAttach <;> cases he : inp.settings.bIsEmbedded <;>
    simp [earlyRun, guardRelease, EngineExit, prefixEvents, hw, he,
      List.count_append, List.count_cons]

/-- Witness for C1: the concrete run whose `PreInit` fails with code 7. -/
theorem claim_C1_witness :
    GuardedMain preInitFailInput 5 = some (earlyRun preInitFailInput) ∧
    preInitFailInput.engine.preInitError ≠ 0 ∧
    ((earlyRun preInitFailInput).2.2.count Event.initCall = 0 ∧
     (earlyRun preInitFailInput).2.2.count Event.tickCall = 0 ∧
     (earlyRun preInitFailInput).1 = preInitFailInput.engine.preInitError ∧
     (earlyRun preInitFailInput).2.2.count Event.engineLoopExitCall =
       (if preInitFailInput.settings.bIsEmbedded then 0 else 1)) :=
  ⟨by decide, by decide, claim_C1 preInitFailInput 5 _ (by decide) (by decide)⟩

/-- C2: on every completed run the exit phase executes at most once. -/
theorem claim_C2 (inp : GMInput) (fuel : Nat) (r : Int × RunState × List Event)
    (h : GuardedMain inp fuel = some r) :
    r.2.2.count Event.engineLoopExitCall ≤ 1 := by
  rcases GuardedMain_inv h with ⟨_, hr⟩ | ⟨_, _, s4, tickEvs, hm, hr⟩ <;> subst hr
  · cases hw : inp.waitForAttach <;> cases he : inp.settings.bIsEmbedded <;>
      simp [earlyRun, guardRelease, EngineExit, prefixEvents, hw, he,
        List.count_append, List.count_cons]
  · have htick : tickEvs.count Event.engineLoopExitCall = 0 := by
      cases he : inp.settings.bIsEmbedded
      · rw [he] at hm
        simp only [Bool.false_eq_true, if_false] at hm
        exact tickLoop_count_eq_zero hm (by decide)
      · rw [he] at hm
        simp only [if_true] at hm
        cases hm
        simp
    cases hw : inp.waitForAttach <;> cases he : inp.settings.bIsEmbedded <;>
      simp [fullRun, guardRelease, EngineExit, prefixEvents, slowTaskEvents, hw, he,
        List.count_append, List.count_cons, htick]

/-- Witness for C2: the concrete three-tick run. -/
theorem claim_C2_witness :
    GuardedMain threeTickInput 5 = some threeTickRun ∧
    threeTickRun.2.2.count Event.engineLoopExitCall ≤ 1 :=
  ⟨by decide, claim_C2 threeTickInput 5 threeTickRun (by decide)⟩

/-- C3: when embedded mode is set, the tick loop never runs and the
controller itself never invokes the exit phase. -/
theorem claim_C3 (inp : GMInput) (fuel : Nat) (r : Int × RunState × List Event)
    (h : GuardedMain inp fuel = some r) (he : inp.settings.bIsEmbedded = true) :
    r.2.2.count Event.tickCall = 0 ∧
    r.2.2.count Event.engineLoopExitCall = 0 ∧
    r.2.2.count Event.requestExitSet = 0 := by
  rcases GuardedMain_inv h with ⟨_, hr⟩ | ⟨_, _, s4, tickEvs, hm, hr⟩ <;> subst hr
  · cases hw : inp.waitForAttach <;>
      simp [earlyRun, guardRelease, EngineExit, prefixEvents, hw, he,
        List.count_append, List.count_cons]
  · rw [he] at hm
    simp only [if_true] at hm
    cases hm
    cases hw : inp.waitForAttach <;>
      simp [fullRun, guardRelease, EngineExit, prefixEvents, slowTaskEvents, hw, he,
        List.count_append, List.count_cons]

/-- Witness for C3: the concrete embedded run. -/
theorem claim_C3_witness :
    GuardedMain embeddedInput 0 =
      some (fullRun embeddedInput (stateAtLoopEntry embeddedInput) []) ∧
    embeddedInput.settings.bIsEmbedded = true ∧
    ((fullRun embeddedInput (stateAtLoopEntry embeddedInput) []).2.2.count
        Event.tickCall = 0 ∧
     (fullRun embeddedInput (stateAtLoopEntry embeddedInput) []).2.2.count
        Event.engineLoopExitCall = 0 ∧
     (fullRun embeddedInput (stateAtLoopEntry embeddedInput) []).2.2.count
        Event.requestExitSet = 0) :=
  ⟨by decide, by decide, claim_C3 embeddedInput 0 _ (by decide) (by decide)⟩

/-- A run whose `Init` fails with error level 5 and whose first tick
requests exit. -/
def initFailInput : GMInput :=
  { baseInput with
      engine :=
        { baseEngine with initError := 5, tickRequestsExit := fun i => i == 0 } }

/-- `initFailInput` with the init failure removed; used to compare tick
counts between the failing and the succeeding run. -/
def initZeroInput : GMInput :=
  { initFailInput with engine := { initFailInput.engine with initError := 0 } }

/-- The completed `initFailInput` run: one tick, result 5. -/
def initFailRun : Int × RunState × List Event :=
  fullRun initFailInput { exitRequested := true } [Event.tickCall]

/-- The completed `initZeroInput` run: one tick, result 0. -/
def initZeroRun : Int × RunState × List Event :=
  fullRun initZeroInput { exitRequested := true } [Event.tickCall]

/-- The number of tick calls in a run's trace equals the number emitted by
the tick loop: the rest of the trace contains no tick events. -/
theorem fullRun_count_tick (inp : GMInput) (s4 : RunState) (tickEvs : List Event) :
    (fullRun inp s4 tickEvs).2.2.count Event.tickCall = tickEvs.count Event.tickCall := by
  cases hw : inp.waitForAttach <;> cases he : inp.settings.bIsEmbedded <;>
    simp [fullRun, guardRelease, EngineExit, prefixEvents, slowTaskEvents, hw, he,
      List.count_append, List.count_cons]

/-- C4: when pre-init succeeds with no pending exit request but `Init`
returns a non-zero error level, the run still proceeds to the tick loop:
`Init` is invoked, the final result is `Init`'s error code, and the tick
loop behaves exactly as in the same run with the init failure removed
(init failure does not gate entry to `Run`). -/
theorem claim_C4 (inp : GMInput) (fuel : Nat) (r r2 : Int × RunState × List Event)
    (h : GuardedMain inp fuel = some r)
    (h2 : GuardedMain { inp with engine := { inp.engine with initError := 0 } } fuel =
      some r2)
    (hp : inp.engine.preInitError = 0)
    (hflag : (stateAfterPreInit inp).exitRequested = false)
    (hinit : inp.engine.initError ≠ 0) :
    r.1 = inp.engine.initError ∧
    r.2.2.count Event.initCall = 1 ∧
    r.2.2.count Event.tickCall = r2.2.2.count Event.tickCall := by
  rcases GuardedMain_inv h with ⟨hc, _⟩ | ⟨_, _, s4, tickEvs, hm, hr⟩
  · rcases hc with hc | hc
    · exact absurd hp hc
    · rw [hflag] at hc
      cases hc
  rcases GuardedMain_inv h2 with ⟨hc, _⟩ | ⟨_, _, s5, tickEvs2, hm2, hr2⟩
  · rcases hc with hc | hc
    · exact absurd hp hc
    · rw [show stateAfterPreInit { inp with engine := { inp.engine with initError := 0 } } =
          stateAfterPreInit inp from rfl, hflag] at hc
      cases hc
  subst hr
  subst hr2
  have hsame :
      (if inp.settings.bIsEmbedded then some (stateAtLoopEntry inp, ([] : List Event))
       else tickLoop inp.engine.tickRequestsExit fuel 0 (stateAtLoopEntry inp)) =
        some (s5, tickEvs2) := hm2
  rw [hm] at hsame
  have hevs : tickEvs = tickEvs2 := by
    cases hsame
    rfl
  subst hevs
  refine ⟨rfl, ?_, ?_⟩
  · cases hw : inp.waitForAttach <;> cases he : inp.settings.bIsEmbedded <;>
      have htick : tickEvs.count Event.initCall = 0 := by
        first
        | (rw [he] at hm
           simp only [Bool.false_eq_true, if_false] at hm
           exact tickLoop_count_eq_zero hm (by decide))
        | (rw [he] at hm
           simp only [if_true] at hm
           cases hm
           simp)
    all_goals
      simp [fullRun, guardRelease, EngineExit, prefixEvents, slowTaskEvents, hw, he,
        List.count_append, List.count_cons, htick]
  · rw [fullRun_count_tick, fullRun_count_tick]

/-- Witness for C4: the concrete init-failure run next to its repaired
variant; both tick exactly once and the failing run returns 5. -/
theorem claim_C4_witness :
    GuardedMain initFailInput 3 = some initFailRun ∧
    GuardedMain initZeroInput 3 = some initZeroRun ∧
    initFailInput.engine.preInitError = 0 ∧
    (stateAfterPreInit initFailInput).exitRequested = false ∧
    initFailInput.engine.initError ≠ 0 ∧
    (initFailRun.1 = initFailInput.engine.initError ∧
     initFailRun.2.2.count Event.initCall = 1 ∧
     initFailRun.2.2.count Event.tickCall = initZeroRun.2.2.count Event.tickCall) :=
  ⟨by decide, by decide, by decide, by decide, by decide,
    claim_C4 initFailInput 3 initFailRun initZeroRun (by decide) (by decide)
      (by decide) (by decide) (by decide)⟩

/-- C5: with pre-init successful and not embedded, if the exit request is
already true at the first loop-boundary check the tick loop runs zero
iterations; and if tick `n` (zero-based) is the first to request exit, the
loop runs exactly `n + 1` iterations — iteration `n + 1` completes and no
further one begins, the flag being read fresh at each boundary. -/
theorem claim_C5 (inp : GMInput) (fuel : Nat) (r : Int × RunState × List Event)
    (h : GuardedMain inp fuel = some r)
    (hp : inp.engine.preInitError = 0)
    (hflag : (stateAfterPreInit inp).exitRequested = false)
    (hemb : inp.settings.bIsEmbedded = false) :
    ((stateAtLoopEntry inp).exitRequested = true →
      r.2.2.count Event.tickCall = 0) ∧
    (∀ n : Nat, (stateAtLoopEntry inp).exitRequested = false →
      (∀ i, i < n → inp.engine.tickRequestsExit i = false) →
      inp.engine.tickRequestsExit n = true →
      r.2.2.count Event.tickCall = n + 1) := by
  rcases GuardedMain_inv h with ⟨hc, _⟩ | ⟨_, _, s4, tickEvs, hm, hr⟩
  · rcases hc with hc | hc
    · exact absurd hp hc
    · rw [hflag] at hc
      cases hc
  subst hr
  rw [hemb] at hm
  simp only [Bool.false_eq_true, if_false] at hm
  constructor
  · intro hx
    rw [tickLoop_of_exit inp.engine.tickRequestsExit fuel 0 hx] at hm
    cases hm
    rw [fullRun_count_tick]
    simp
  · intro n hx hlt hn
    have hnf : n < fuel := by
      by_contra hge
      push_neg at hge
      rw [tickLoop_none inp.engine.tickRequestsExit hx
        (fun i hi => by simpa using hlt i (lt_of_lt_of_le hi hge))] at hm
      cases hm
    rw [tickLoop_first inp.engine.tickRequestsExit hx
      (fun i hi => by simpa using hlt i hi) (by simpa using hn) hnf] at hm
    cases hm
    rw [fullRun_count_tick]
    simp

/-- Witness for C5: in the three-tick run tick number 2 is the first to
request exit, and the loop runs exactly three iterations. -/
theorem claim_C5_witness :
    GuardedMain threeTickInput 5 = some threeTickRun ∧
    threeTickRun.2.2.count Event.tickCall = 2 + 1 :=
  ⟨by decide,
    (claim_C5 threeTickInput 5 threeTickRun (by decide) (by decide) (by decide)
        (by decide)).2 2 (by decide)
      (by
        intro i hi
        interval_cases i <;> decide)
      (by decide)⟩

/-- C6: in the run where both boot phases succeed and the exit flag is
observed false at exactly three loop-boundary checks before turning true,
the tick operation runs exactly three times and the final result is 0. -/
theorem claim_C6 :
    (GuardedMain threeTickInput 5).map
      (fun r => (r.1, r.2.2.count Event.tickCall)) = some (0, 3) := by
  decide

/-- The percentages reported by the progress accountant during a run, in
order of appearance in the trace. -/
def progressVals (evs : List Event) : List Nat :=
  evs.filterMap fun e =>
    match e with
    | Event.progressReport p => some p
    | _ => none

/-- C7: across every completed run the reported progress percentages are
monotonically non-decreasing and never exceed 100. -/
theorem claim_C7 (inp : GMInput) (fuel : Nat) (r : Int × RunState × List Event)
    (h : GuardedMain inp fuel = some r) :
    List.Chain' (· ≤ ·) (progressVals r.2.2) ∧
    ∀ p ∈ progressVals r.2.2, p ≤ 100 := by
  rcases GuardedMain_inv h with ⟨_, hr⟩ | ⟨_, _, s4, tickEvs, hm, hr⟩ <;> subst hr
  · cases hw : inp.waitForAttach <;> cases he : inp.settings.bIsEmbedded <;>
      simp [progressVals, earlyRun, guardRelease, EngineExit, prefixEvents, hw, he]
  · have htick : progressVals tickEvs = [] := by
      cases he : inp.settings.bIsEmbedded
      · rw [he] at hm
        simp only [Bool.false_eq_true, if_false] at hm
        refine List.filterMap_eq_nil_iff.mpr fun e he2 => ?_
        rw [tickLoop_events hm e he2]
      · rw [he] at hm
        simp only [if_true] at hm
        cases hm
        rfl
    simp only [progressVals] at htick
    cases hw : inp.waitForAttach <;> cases he : inp.settings.bIsEmbedded <;>
      simp [progressVals, fullRun, guardRelease, EngineExit, prefixEvents,
        slowTaskEvents_eq, hw, he, List.filterMap_append, htick]

/-- Witness for C7: the three-tick run reports 80% then 100%. -/
theorem claim_C7_witness :
    GuardedMain threeTickInput 5 = some threeTickRun ∧
    (List.Chain' (· ≤ ·) (progressVals threeTickRun.2.2) ∧
     ∀ p ∈ progressVals threeTickRun.2.2, p ≤ 100) :=
  ⟨by decide, claim_C7 threeTickInput 5 threeTickRun (by decide)⟩

/-- The acquisition events of the run's scoped (RAII) objects. -/
def isAcquire : Event → Bool
  | Event.acquireTaskTag => true
  | Event.acquireGuard => true
  | Event.acquireSlowTask => true
  | _ => false

/-- The release events of the run's scoped (RAII) objects: the slow-task
scope ending, the guard's release action reaching `GEngineLoop.Exit()`, and
the task-tag scope ending. -/
def isRelease : Event → Bool
  | Event.releaseSlowTask => true
  | Event.engineLoopExitCall => true
  | Event.releaseTaskTag => true
  | _ => false

/-- The release event paired with each acquisition event. -/
def releaseOf : Event → Event
  | Event.acquireTaskTag => Event.releaseTaskTag
  | Event.acquireGuard => Event.engineLoopExitCall
  | Event.acquireSlowTask => Event.releaseSlowTask
  | e => e

/-- The tick loop's trace contains no event satisfying a predicate false on
tick calls. -/
theorem tickLoop_filter_nil {tickReq : Nat → Bool} {fuel k : Nat}
    {s s2 : RunState} {evs : List Event}
    (h : tickLoop tickReq fuel k s = some (s2, evs)) {p : Event → Bool}
    (hp : p Event.tickCall = false) : evs.filter p = [] :=
  List.filter_eq_nil_iff.mpr fun e he => by
    rw [tickLoop_events h e he]
    simp [hp]

/-- Counterexample to C8 as stated: in a concrete completed run the first
scoped resource acquired is the task-tag scope, not the cleanup guard, and
consequently the last scoped resource released is the task-tag scope, not
the guard's exit phase. -/
theorem claim_C8_counterexample :
    (GuardedMain threeTickInput 5).map
        (fun r => ((r.2.2.filter isAcquire).head?, (r.2.2.filter isRelease).getLast?)) =
      some (some Event.acquireTaskTag, some Event.releaseTaskTag) ∧
    some Event.acquireTaskTag ≠ some Event.acquireGuard ∧
    some Event.releaseTaskTag ≠ some Event.engineLoopExitCall := by
  decide

/-- C8 amended: the cleanup guard is the second scoped resource acquired in
the sequencer's scope, right after the task-tag scope; scoped resources are
released in exact reverse order of acquisition, so the guard's release
action (the exit phase) runs after the inner slow-task scope is released
and before the task-tag scope is released (and, the trace being inside the
sequencer's frame, before anything an enclosing caller releases); the
release action is idempotent-safe when an exit request is already
pending. -/
theorem claim_C8_amended (inp : GMInput) (fuel : Nat)
    (r : Int × RunState × List Event)
    (h : GuardedMain inp fuel = some r) (hemb : inp.settings.bIsEmbedded = false) :
    (r.2.2.filter isAcquire).take 2 = [Event.acquireTaskTag, Event.acquireGuard] ∧
    r.2.2.filter isRelease = ((r.2.2.filter isAcquire).map releaseOf).reverse ∧
    r.2.2.count Event.engineLoopExitCall = 1 ∧
    ∀ s : RunState, (EngineExit (RequestEngineExit s)).1 = (EngineExit s).1 := by
  rcases GuardedMain_inv h with ⟨_, hr⟩ | ⟨_, _, s4, tickEvs, hm, hr⟩ <;> subst hr
  · cases hw : inp.waitForAttach <;>
      refine ⟨?_, ?_, ?_, fun s => rfl⟩ <;>
      simp [earlyRun, guardRelease, EngineExit, prefixEvents, hw, hemb,
        isAcquire, isRelease, releaseOf, List.filter_append, List.count_append,
        List.count_cons]
  · rw [hemb] at hm
    simp only [Bool.false_eq_true, if_false] at hm
    have hfa : tickEvs.filter isAcquire = [] := tickLoop_filter_nil hm rfl
    have hfr : tickEvs.filter isRelease = [] := tickLoop_filter_nil hm rfl
    have hfc : tickEvs.count Event.engineLoopExitCall = 0 :=
      tickLoop_count_eq_zero hm (by decide)
    cases hw : inp.waitForAttach <;>
      refine ⟨?_, ?_, ?_, fun s => rfl⟩ <;>
      simp [fullRun, guardRelease, EngineExit, prefixEvents, slowTaskEvents_eq,
        hw, hemb, isAcquire, isRelease, releaseOf, List.filter_append,
        List.count_append, List.count_cons, hfa, hfr, hfc]

/-- Witness for the amended C8: the three-tick run acquires the task-tag
scope, then the guard, then the slow task, and releases them in reverse
order. -/
theorem claim_C8_witness :
    GuardedMain threeTickInput 5 = some threeTickRun ∧
    ((threeTickRun.2.2.filter isAcquire).take 2 =
        [Event.acquireTaskTag, Event.acquireGuard] ∧
     threeTickRun.2.2.filter isRelease =
        ((threeTickRun.2.2.filter isAcquire).map releaseOf).reverse ∧
     threeTickRun.2.2.count Event.engineLoopExitCall = 1 ∧
     ∀ s : RunState, (EngineExit (RequestEngineExit s)).1 = (EngineExit s).1) :=
  ⟨by decide, claim_C8_amended threeTickInput 5 threeTickRun (by decide) (by decide)⟩

/-- Positions of the one-shot pre-main broadcast relative to the debug
attach gate and the pre-init call, in a trace made of the fixed pre-loop
segment followed by any tail that contains no further broadcast. -/
theorem prefixOrder (wait : Bool) (rest : List Event)
    (hrest : Event.preMainBroadcast ∉ rest) :
    ((prefixEvents wait ++ rest).count Event.preMainBroadcast = 1) ∧
    (prefixEvents wait ++ rest).indexOf Event.preMainBroadcast <
      (prefixEvents wait ++ rest).indexOf Event.preInitCall ∧
    (wait = true →
      (prefixEvents wait ++ rest).indexOf Event.debugGate <
        (prefixEvents wait ++ rest).indexOf Event.preMainBroadcast) := by
  have hb : Event.preMainBroadcast ∈ prefixEvents wait := by
    cases wait <;> decide
  have hp : Event.preInitCall ∈ prefixEvents wait := by
    cases wait <;> decide
  refine ⟨?_, ?_, ?_⟩
  · rw [List.count_append, List.count_eq_zero.mpr hrest]
    cases wait <;> decide
  · rw [List.indexOf_append_of_mem hb, List.indexOf_append_of_mem hp]
    cases wait <;> decide
  · intro hw
    subst hw
    rw [List.indexOf_append_of_mem (by decide), List.indexOf_append_of_mem hb]
    decide

/-- C9: every completed run broadcasts the pre-main notification exactly
once, strictly after the debug attach gate (when the gate runs at all) and
strictly before `EnginePreInit` is called. -/
theorem claim_C9 (inp : GMInput) (fuel : Nat) (r : Int × RunState × List Event)
    (h : GuardedMain inp fuel = some r) :
    r.2.2.count Event.preMainBroadcast = 1 ∧
    r.2.2.indexOf Event.preMainBroadcast < r.2.2.indexOf Event.preInitCall ∧
    (inp.waitForAttach = true →
      r.2.2.indexOf Event.debugGate < r.2.2.indexOf Event.preMainBroadcast) := by
  rcases GuardedMain_inv h with ⟨_, hr⟩ | ⟨_, _, s4, tickEvs, hm, hr⟩ <;> subst hr
  · cases he : inp.settings.bIsEmbedded
    · have htr : (earlyRun inp).2.2 =
          prefixEvents inp.waitForAttach ++
            [Event.requestExitSet, Event.engineLoopExitCall, Event.releaseTaskTag] := by
        simp [earlyRun, guardRelease, EngineExit, he]
      rw [htr]
      exact prefixOrder _ _ (by decide)
    · have htr : (earlyRun inp).2.2 =
          prefixEvents inp.waitForAttach ++ [Event.releaseTaskTag] := by
        simp [earlyRun, guardRelease, he]
      rw [htr]
      exact prefixOrder _ _ (by decide)
  · have htickmem : ∀ e ∈ tickEvs, e = Event.tickCall := by
      cases he : inp.settings.bIsEmbedded
      · rw [he] at hm
        simp only [Bool.false_eq_true, if_false] at hm
        exact tickLoop_events hm
      · rw [he] at hm
        simp only [if_true] at hm
        cases hm
        intro e he2
        cases he2
    have hnb : Event.preMainBroadcast ∉ tickEvs := fun hmem =>
      absurd (htickmem _ hmem) (by decide)
    cases he : inp.settings.bIsEmbedded
    · have htr : (fullRun inp s4 tickEvs).2.2 =
          prefixEvents inp.waitForAttach ++
            (slowTaskEvents ++ tickEvs ++
              [Event.requestExitSet, Event.engineLoopExitCall, Event.releaseTaskTag]) := by
        simp [fullRun, guardRelease, EngineExit, he, List.append_assoc]
      rw [htr]
      refine prefixOrder _ _ ?_
      intro hmem
      rcases List.mem_append.mp hmem with hmem2 | hmem2
      · rcases List.mem_append.mp hmem2 with hmem3 | hmem3
        · exact absurd hmem3 (by rw [slowTaskEvents_eq]; decide)
        · exact hnb hmem3
      · exact absurd hmem2 (by decide)
    · have htr : (fullRun inp s4 tickEvs).2.2 =
          prefixEvents inp.waitForAttach ++
            (slowTaskEvents ++ tickEvs ++ [Event.releaseTaskTag]) := by
        simp [fullRun, guardRelease, he, List.append_assoc]
      rw [htr]
      refine prefixOrder _ _ ?_
      intro hmem
      rcases List.mem_append.mp hmem with hmem2 | hmem2
      · rcases List.mem_append.mp hmem2 with hmem3 | hmem3
        · exact absurd hmem3 (by rw [slowTaskEvents_eq]; decide)
        · exact hnb hmem3
      · exact absurd hmem2 (by decide)

/-- Witness for C9: a run with the debug attach gate enabled and a failing
pre-init broadcasts once, after the gate and before pre-init. -/
theorem claim_C9_witness :
    GuardedMain { preInitFailInput with waitForAttach := true } 5 =
      some (earlyRun { preInitFailInput with waitForAttach := true }) ∧
    ((earlyRun { preInitFailInput with waitForAttach := true }).2.2.count
        Event.preMainBroadcast = 1 ∧
     (earlyRun { preInitFailInput with waitForAttach := true }).2.2.indexOf
        Event.preMainBroadcast <
       (earlyRun { preInitFailInput with waitForAttach := true }).2.2.indexOf
        Event.preInitCall ∧
     (({ preInitFailInput with waitForAttach := true } : GMInput).waitForAttach = true →
       (earlyRun { preInitFailInput with waitForAttach := true }).2.2.indexOf
          Event.debugGate <
         (earlyRun { preInitFailInput with waitForAttach := true }).2.2.indexOf
          Event.preMainBroadcast)) :=
  ⟨by decide,
    claim_C9 { preInitFailInput with waitForAttach := true } 5
      (earlyRun { preInitFailInput with waitForAttach := true }) (by decide)⟩

/-- C10: the controller's exit phase first sets the global exit-request
flag and only then runs the engine-loop `Exit`; hence after any
non-embedded completed run the flag is set, even when shutdown was reached
without a prior external exit request. -/
theorem claim_C10 (s : RunState) (inp : GMInput) (fuel : Nat)
    (r : Int × RunState × List Event)
    (h : GuardedMain inp fuel = some r) (hemb : inp.settings.bIsEmbedded = false) :
    (EngineExit s).1.exitRequested = true ∧
    (EngineExit s).2 = [Event.requestExitSet, Event.engineLoopExitCall] ∧
    r.2.1.exitRequested = true := by
  refine ⟨rfl, rfl, ?_⟩
  rcases GuardedMain_inv h with ⟨_, hr⟩ | ⟨_, _, s4, tickEvs, hm, hr⟩ <;> subst hr
  · simp [earlyRun, guardRelease, EngineExit, hemb]
  · simp [fullRun, guardRelease, EngineExit, hemb]

/-- Witness for C10: the failing-pre-init run ends with the flag set even
though no external exit request was ever made. -/
theorem claim_C10_witness :
    (EngineExit { exitRequested := false }).1.exitRequested = true ∧
    (EngineExit { exitRequested := false }).2 =
      [Event.requestExitSet, Event.engineLoopExitCall] ∧
    (earlyRun preInitFailInput).2.1.exitRequested = true :=
  claim_C10 { exitRequested := false } preInitFailInput 5
    (earlyRun preInitFailInput) (by decide) (by decide)

end Launch
